import Mathlib

/-!
Verification development for brozzler/robots.py (robots.txt support).

The file shallowly embeds the module's data model and control flow:

* `hasSubstr` / `reppy_rules_getitem` — the monkey-patched substring
  user-agent lookup installed over reppy.parser.Rules.__getitem__;
* `sessionRaiseOn420_get` — the SessionRaiseOn420.get wrapper that turns a
  420 response carrying a warcprox-meta header into a ReachedLimit signal;
* `mkSession` / `robots_cache` — the per-site session/RobotsCache registry
  _robots_caches, modelled as explicit state passing over an association
  list keyed by site id;
* `Exc` / `classify` / `isPermittedLoop` / `is_permitted_by_robots` — the
  retry loop of is_permitted_by_robots.  Python exceptions are modelled as
  a kind (the isinstance class that the code inspects) together with the
  list of values in the exception's args tuple; the outcome of each call
  to RobotsCache.allowed (an external collaborator) is an oracle
  `attempt : Nat → FetchOutcome`;
* `callerStep` / `run2` — an interleaving model of two callers racing
  through the unsynchronised check-then-create of _robots_cache, with one
  atomic step per Python statement (membership test; construct-and-store;
  final dictionary lookup).
-/

namespace Brozzler

/-- Association-list lookup, first match wins; models Python dict lookup
(later stores are consed on the front, shadowing older ones). -/
def lookupKey {α β : Type} [DecidableEq α] : List (α × β) → α → Option β
  | [], _ => none
  | p :: t, k => if p.1 = k then some p.2 else lookupKey t k

/-- `hasSubstr n h` decides whether `n` occurs contiguously anywhere inside
`h` — the meaning of Python's `n in h` on strings. -/
def hasSubstr : List Char → List Char → Bool
  | needle, [] => needle.isEmpty
  | needle, c :: t => needle.isPrefixOf (c :: t) || hasSubstr needle t

/-- Embeds `_reppy_rules_getitem` from robots.py: lower-case the supplied
full user agent, return the rules of the first agent token that occurs as a
substring of it, and fall back to the rules of the wildcard token. `agents`
is the ordered key/value list of the `self.agents` dict. -/
def reppy_rules_getitem {α : Type} (agents : List (String × α)) (agent : String) : Option α :=
  match agents.find?
      (fun p => hasSubstr p.1.toList (agent.toList.map Char.toLower)) with
  | some p => some p.2
  | none => lookupKey agents "*"

/-- The site descriptor fields that robots.py reads. -/
structure Site where
  id : Nat
  ignore_robots : Bool
  user_agent : Option String
  extra_headers : List (String × String)
deriving DecidableEq

/-- An HTTP response as seen by `SessionRaiseOn420.get`. -/
structure Response where
  status_code : Nat
  headers : List (String × String)
  text : String
deriving DecidableEq

/-- Result of the wrapped session `get`: either the response is returned
unchanged, or a ReachedLimit signal is raised carrying the raw
warcprox-meta header value (which the source hands to `json.loads`) and the
response body text. -/
inductive GetResult where
  | ok (res : Response)
  | reachedLimit (warcprox_meta : String) (http_payload : String)
deriving DecidableEq

/-- Embeds `SessionRaiseOn420.get`: a response with status 420 whose
headers hold a warcprox-meta entry raises
`brozzler.ReachedLimit(warcprox_meta=json.loads(hdr), http_payload=res.text)`;
every other response is returned as is. -/
def sessionRaiseOn420_get (res : Response) : GetResult :=
  match res.status_code == 420, lookupKey res.headers "warcprox-meta" with
  | true, some v => .reachedLimit v res.text
  | _, _ => .ok res

/-- The session/RobotsCache pair stored per site id: the configuration the
source applies to the fresh `SessionRaiseOn420`. -/
structure CacheEntry where
  verify : Bool
  proxies : Option String
  headers : List (String × String)
deriving DecidableEq

/-- Builds the configured session exactly as `_robots_cache` does on a
miss: `verify = False`; proxies set from a truthy proxy argument as
`"http://%s" % proxy`; headers updated from a truthy
`site.extra_headers()` and then a truthy `site.user_agent`. -/
def mkSession (site : Site) (proxy : Option String) : CacheEntry :=
  let hdrs0 : List (String × String) := site.extra_headers
  let hdrs1 := match site.user_agent with
    | some ua => if ua = "" then hdrs0 else ("User-Agent", ua) :: hdrs0
    | none => hdrs0
  { verify := false
  , proxies := match proxy with
      | some p => if p = "" then none else some ("http://" ++ p)
      | none => none
  , headers := hdrs1 }

/-- The `_robots_caches` dict, threaded explicitly: site id ↦ entry. -/
abbrev Caches := List (Nat × CacheEntry)

/-- Embeds `_robots_cache`: on a hit return the stored pair and leave the
registry untouched; on a miss construct the configured session, store it
under `site.id`, and return the freshly stored pair. -/
def robots_cache (caches : Caches) (site : Site) (proxy : Option String) :
    CacheEntry × Caches :=
  match lookupKey caches site.id with
  | some entry => (entry, caches)
  | none =>
      let entry := mkSession site proxy
      (entry, (site.id, entry) :: caches)

/-- The isinstance class of a Python value that the except-clause of
`is_permitted_by_robots` can distinguish. -/
inductive ExcKind where
  | serverError
  | reachedLimit (warcprox_meta : String) (http_payload : String)
  | proxyError
  | other (name : String)
deriving DecidableEq

/-- A Python exception value: its class together with the values in its
`args` tuple (only the classes of those values matter to the code, so they
are `Exc`s themselves). -/
inductive Exc where
  | mk (kind : ExcKind) (args : List Exc)

/-- Class of an exception value. -/
def Exc.kind : Exc → ExcKind
  | .mk k _ => k

/-- The `args` tuple of an exception value. -/
def Exc.args : Exc → List Exc
  | .mk _ a => a

/-- Whether a value is a `brozzler.ReachedLimit` instance. -/
def ExcKind.isReached : ExcKind → Bool
  | .reachedLimit _ _ => true
  | _ => false

/-- Whether a value is a `requests.exceptions.ProxyError` instance. -/
def ExcKind.isProxy : ExcKind → Bool
  | .proxyError => true
  | _ => false

/-- What the except-clause of `is_permitted_by_robots` does with a caught
exception, before the tries_left bookkeeping. -/
inductive Classified where
  | raiseReachedLimit (inner : Exc)
  | raiseProxyError
  | transient
  | indexError

/-- Embeds the classification in the except-clause:
`isinstance(e, reppy.exceptions.ServerError) and isinstance(e.args[0],
brozzler.ReachedLimit)` re-raises `e.args[0]`; otherwise
`hasattr(e, 'args') and isinstance(e.args[0], requests.exceptions.ProxyError)`
raises `brozzler.ProxyError(e)`; everything else falls to the retry branch.
Both conditions evaluate `e.args[0]`, so an empty `args` tuple makes the
classification itself raise an IndexError. -/
def classify (e : Exc) : Classified :=
  match e with
  | .mk .serverError (h :: _) =>
      if h.kind.isReached then .raiseReachedLimit h
      else if h.kind.isProxy then .raiseProxyError
      else .transient
  | .mk _ (h :: _) =>
      if h.kind.isProxy then .raiseProxyError
      else .transient
  | .mk _ [] => .indexError

/-- Outcome of one call to `RobotsCache.allowed` (the external directive
cache): a boolean answer, or a raised exception. -/
inductive FetchOutcome where
  | ok (b : Bool)
  | exc (e : Exc)

/-- Severity of a log record emitted by the loop. -/
inductive LogLevel where
  | warn
  | error
deriving DecidableEq

/-- One log record: its level and the tries-left count interpolated into
the message (the error record hard-codes "0 tries left"). -/
structure LogEntry where
  level : LogLevel
  triesLeftShown : Nat
deriving DecidableEq

/-- What a caller of `is_permitted_by_robots` observes. -/
inductive Result where
  | ok (b : Bool)
  | reachedLimit (signal : Exc)
  | proxyError (cause : Exc)
  | pyError

/-- Full observable behaviour of one call: the outcome, the log records in
order, the number of `allowed` attempts performed, and the final registry. -/
structure LoopOut where
  result : Result
  log : List LogEntry
  attempts : Nat
  caches : Caches

/-- Embeds the `while True` retry loop of `is_permitted_by_robots`; each
iteration consults `_robots_cache` and then calls `allowed` (the oracle
`attempt` at the iteration index `k`).  Structured as two equations on
`triesLeft` so the recursion is structural; the equations differ only in
the transient branch, which is the `tries_left > 0` test of the source. -/
def isPermittedLoop (site : Site) (proxy : Option String)
    (attempt : Nat → FetchOutcome) : Nat → Nat → Caches → LoopOut
  | 0, k, caches =>
      let caches₁ := (robots_cache caches site proxy).2
      match attempt k with
      | .ok b => ⟨.ok b, [], 1, caches₁⟩
      | .exc e =>
        match classify e with
        | .raiseReachedLimit inner => ⟨.reachedLimit inner, [], 1, caches₁⟩
        | .raiseProxyError => ⟨.proxyError e, [], 1, caches₁⟩
        | .indexError => ⟨.pyError, [], 1, caches₁⟩
        | .transient => ⟨.ok false, [⟨.error, 0⟩], 1, caches₁⟩
  | t + 1, k, caches =>
      let caches₁ := (robots_cache caches site proxy).2
      match attempt k with
      | .ok b => ⟨.ok b, [], 1, caches₁⟩
      | .exc e =>
        match classify e with
        | .raiseReachedLimit inner => ⟨.reachedLimit inner, [], 1, caches₁⟩
        | .raiseProxyError => ⟨.proxyError e, [], 1, caches₁⟩
        | .indexError => ⟨.pyError, [], 1, caches₁⟩
        | .transient =>
            let inner := isPermittedLoop site proxy attempt t (k + 1) caches₁
            ⟨inner.result, ⟨.warn, t + 1⟩ :: inner.log, inner.attempts + 1,
              inner.caches⟩

/-- Embeds `is_permitted_by_robots`: the ignore_robots early return, then
the loop with `tries_left = 10`. -/
def is_permitted_by_robots (caches : Caches) (site : Site)
    (proxy : Option String) (attempt : Nat → FetchOutcome) : LoopOut :=
  if site.ignore_robots then ⟨.ok true, [], 0, caches⟩
  else isPermittedLoop site proxy attempt 10 0 caches

/-- The warning records produced by `n` consecutive transient failures
starting with `tries_left = t`: counts t, t-1, ... -/
def warnSeq : Nat → Nat → List LogEntry
  | _, 0 => []
  | t, n + 1 => ⟨.warn, t⟩ :: warnSeq (t - 1) n

/-- Number of log records at a given level. -/
def countLevel (lv : LogLevel) (log : List LogEntry) : Nat :=
  (log.filter (fun en => decide (en.level = lv))).length

/-- The outcome of `attempt` was an exception that the except-clause sends
to the retry branch. -/
def transientOutcome (fo : FetchOutcome) : Prop :=
  ∃ e, fo = .exc e ∧ classify e = .transient

/-- A registry keyed without duplicates. -/
abbrev nodupKeys (l : Caches) : Prop := (l.map Prod.fst).Nodup

/-- A concrete site used in closed evaluations. -/
def sampleSite : Site :=
  { id := 1, ignore_robots := false, user_agent := some "brozzler"
  , extra_headers := [] }

/-- A concrete exception that classifies as transient (e.g. a
ConnectionError whose args hold a message value). -/
def excTransient : Exc :=
  .mk (.other "ConnectionError") [.mk (.other "str") []]

/-! ### Interleaving model of the unsynchronised registry

`_robots_cache`'s get-or-create runs without a lock.  Under the CPython
GIL each bytecode step is atomic but the membership test, the
construct-and-store, and the final lookup are separated by many bytecodes,
so two threads may interleave between them.  A caller is a small program
counter over those three atomic steps; `run2` runs two callers of the same
site under a schedule (`true` steps caller A, `false` steps caller B). -/

/-- Shared registry state plus a counter of how many sessions have been
constructed (each construction triggers its own robots.txt fetch later). -/
structure RegState where
  caches : Caches
  constructions : Nat
deriving DecidableEq

/-- Program counter of one caller running `_robots_cache`. -/
inductive CallerPC where
  | start
  | afterCheck (present : Bool)
  | afterStore
  | finished (entry : Option CacheEntry)
deriving DecidableEq

/-- One atomic step of a caller: the `site.id in _robots_caches` test, the
construct-and-store on a miss (a skip on a hit), and the final
`_robots_caches[site.id]` lookup. -/
def callerStep (site : Site) (proxy : Option String) :
    CallerPC → RegState → CallerPC × RegState
  | .start, s => (.afterCheck (lookupKey s.caches site.id).isSome, s)
  | .afterCheck false, s =>
      (.afterStore,
        ⟨(site.id, mkSession site proxy) :: s.caches, s.constructions + 1⟩)
  | .afterCheck true, s => (.afterStore, s)
  | .afterStore, s => (.finished (lookupKey s.caches site.id), s)
  | .finished e, s => (.finished e, s)

/-- Runs two callers of `_robots_cache` for the same site under a
schedule. -/
def run2 (site : Site) (proxy : Option String) :
    List Bool → CallerPC × CallerPC × RegState → CallerPC × CallerPC × RegState
  | [], st => st
  | c :: sched, (pa, pb, s) =>
      if c then
        let step := callerStep site proxy pa s
        run2 site proxy sched (step.1, pb, step.2)
      else
        let step := callerStep site proxy pb s
        run2 site proxy sched (pa, step.1, step.2)

/-! ### Step lemmas for the retry loop -/

theorem lookupKey_cons_self {α β : Type} [DecidableEq α] (k : α) (v : β)
    (t : List (α × β)) : lookupKey ((k, v) :: t) k = some v := by
  simp [lookupKey]

theorem lookupKey_eq_none_iff {α β : Type} [DecidableEq α]
    (l : List (α × β)) (k : α) :
    lookupKey l k = none ↔ ∀ p ∈ l, p.1 ≠ k := by
  induction l with
  | nil => simp [lookupKey]
  | cons p t ih =>
      by_cases h : p.1 = k
      · simp [lookupKey, h]
      · simp [lookupKey, h, ih]

/-- A hit leaves the registry untouched and ignores proxy and site
configuration other than the identity. -/
theorem robots_cache_hit (caches : Caches) (site : Site)
    (proxy : Option String) (e : CacheEntry)
    (h : lookupKey caches site.id = some e) :
    robots_cache caches site proxy = (e, caches) := by
  unfold robots_cache
  rw [h]

/-- Calling `_robots_cache` again for the same site on the registry it
produced leaves the registry unchanged. -/
theorem robots_cache_idem (caches : Caches) (site : Site)
    (proxy proxy' : Option String) :
    (robots_cache ((robots_cache caches site proxy).2) site proxy').2 =
      (robots_cache caches site proxy).2 := by
  unfold robots_cache
  cases h : lookupKey caches site.id with
  | some e => simp [h]
  | none => simp [h, lookupKey_cons_self]

theorem loop_step_ok (site : Site) (proxy : Option String)
    (attempt : Nat → FetchOutcome) (t k : Nat) (caches : Caches) (b : Bool)
    (hA : attempt k = .ok b) :
    isPermittedLoop site proxy attempt t k caches =
      ⟨.ok b, [], 1, (robots_cache caches site proxy).2⟩ := by
  cases t <;> simp [isPermittedLoop, hA]

theorem loop_step_rl (site : Site) (proxy : Option String)
    (attempt : Nat → FetchOutcome) (t k : Nat) (caches : Caches) (e inner : Exc)
    (hA : attempt k = .exc e) (hC : classify e = .raiseReachedLimit inner) :
    isPermittedLoop site proxy attempt t k caches =
      ⟨.reachedLimit inner, [], 1, (robots_cache caches site proxy).2⟩ := by
  cases t <;> simp [isPermittedLoop, hA, hC]

theorem loop_step_pe (site : Site) (proxy : Option String)
    (attempt : Nat → FetchOutcome) (t k : Nat) (caches : Caches) (e : Exc)
    (hA : attempt k = .exc e) (hC : classify e = .raiseProxyError) :
    isPermittedLoop site proxy attempt t k caches =
      ⟨.proxyError e, [], 1, (robots_cache caches site proxy).2⟩ := by
  cases t <;> simp [isPermittedLoop, hA, hC]

theorem loop_step_idx (site : Site) (proxy : Option String)
    (attempt : Nat → FetchOutcome) (t k : Nat) (caches : Caches) (e : Exc)
    (hA : attempt k = .exc e) (hC : classify e = .indexError) :
    isPermittedLoop site proxy attempt t k caches =
      ⟨.pyError, [], 1, (robots_cache caches site proxy).2⟩ := by
  cases t <;> simp [isPermittedLoop, hA, hC]

theorem loop_step_transient_zero (site : Site) (proxy : Option String)
    (attempt : Nat → FetchOutcome) (k : Nat) (caches : Caches) (e : Exc)
    (hA : attempt k = .exc e) (hC : classify e = .transient) :
    isPermittedLoop site proxy attempt 0 k caches =
      ⟨.ok false, [⟨.error, 0⟩], 1, (robots_cache caches site proxy).2⟩ := by
  simp [isPermittedLoop, hA, hC]

theorem loop_step_transient_succ (site : Site) (proxy : Option String)
    (attempt : Nat → FetchOutcome) (t k : Nat) (caches : Caches) (e : Exc)
    (hA : attempt k = .exc e) (hC : classify e = .transient) :
    isPermittedLoop site proxy attempt (t + 1) k caches =
      ⟨(isPermittedLoop site proxy attempt t (k + 1)
          ((robots_cache caches site proxy).2)).result,
        LogEntry.mk .warn (t + 1) ::
          (isPermittedLoop site proxy attempt t (k + 1)
            ((robots_cache caches site proxy).2)).log,
        (isPermittedLoop site proxy attempt t (k + 1)
          ((robots_cache caches site proxy).2)).attempts + 1,
        (isPermittedLoop site proxy attempt t (k + 1)
          ((robots_cache caches site proxy).2)).caches⟩ := by
  simp [isPermittedLoop, hA, hC]

/-- If the first `n` attempts are transient and attempt `n` succeeds with
`b`, the loop run with budget `t ≥ n` returns `b` after `n + 1` attempts,
logging one warning per failure with the descending tries-left counts. -/
theorem loop_prefix_ok (site : Site) (proxy : Option String)
    (attempt : Nat → FetchOutcome) :
    ∀ (n t k : Nat) (caches : Caches) (b : Bool), n ≤ t →
      (∀ j, j < n → transientOutcome (attempt (k + j))) →
      attempt (k + n) = .ok b →
      isPermittedLoop site proxy attempt t k caches =
        ⟨.ok b, warnSeq t n, n + 1, (robots_cache caches site proxy).2⟩ := by
  intro n
  induction n with
  | zero =>
      intro t k caches b _ _ hok
      rw [Nat.add_zero] at hok
      rw [loop_step_ok site proxy attempt t k caches b hok]
      rfl
  | succ n ih =>
      intro t k caches b hle htr hok
      obtain ⟨e, he, hce⟩ := htr 0 (Nat.succ_pos n)
      rw [Nat.add_zero] at he
      obtain ⟨t2, rfl⟩ : ∃ t2, t = t2 + 1 :=
        ⟨t - 1, by omega⟩
      rw [loop_step_transient_succ site proxy attempt t2 k caches e he hce]
      rw [ih t2 (k + 1) ((robots_cache caches site proxy).2) b
        (by omega)
        (fun j hj => by
          have h := htr (j + 1) (by omega)
          rwa [show k + (j + 1) = k + 1 + j by omega] at h)
        (by rw [show k + 1 + n = k + (n + 1) by omega]; exact hok)]
      rw [robots_cache_idem]
      rfl

/-- If every attempt is transient, the loop run with budget `t` returns
`false` after `t + 1` attempts, logging `t` warnings and one error. -/
theorem loop_all_transient (site : Site) (proxy : Option String)
    (attempt : Nat → FetchOutcome) :
    ∀ (t k : Nat) (caches : Caches),
      (∀ j, j < t + 1 → transientOutcome (attempt (k + j))) →
      isPermittedLoop site proxy attempt t k caches =
        ⟨.ok false, warnSeq t t ++ [⟨.error, 0⟩], t + 1,
          (robots_cache caches site proxy).2⟩ := by
  intro t
  induction t with
  | zero =>
      intro k caches htr
      obtain ⟨e, he, hce⟩ := htr 0 Nat.one_pos
      rw [Nat.add_zero] at he
      rw [loop_step_transient_zero site proxy attempt k caches e he hce]
      rfl
  | succ t ih =>
      intro k caches htr
      obtain ⟨e, he, hce⟩ := htr 0 (Nat.succ_pos _)
      rw [Nat.add_zero] at he
      rw [loop_step_transient_succ site proxy attempt t k caches e he hce]
      rw [ih (k + 1) ((robots_cache caches site proxy).2)
        (fun j hj => by
          have h := htr (j + 1) (by omega)
          rwa [show k + (j + 1) = k + 1 + j by omega] at h)]
      rw [robots_cache_idem]
      rfl

/-- The loop never performs more than `t + 1` attempts. -/
theorem loop_attempts_le (site : Site) (proxy : Option String)
    (attempt : Nat → FetchOutcome) :
    ∀ (t k : Nat) (caches : Caches),
      (isPermittedLoop site proxy attempt t k caches).attempts ≤ t + 1 := by
  intro t
  induction t with
  | zero =>
      intro k caches
      cases hA : attempt k with
      | ok b => rw [loop_step_ok site proxy attempt 0 k caches b hA]
      | exc e =>
          cases hC : classify e with
          | raiseReachedLimit inner =>
              rw [loop_step_rl site proxy attempt 0 k caches e inner hA hC]
          | raiseProxyError =>
              rw [loop_step_pe site proxy attempt 0 k caches e hA hC]
          | indexError =>
              rw [loop_step_idx site proxy attempt 0 k caches e hA hC]
          | transient =>
              rw [loop_step_transient_zero site proxy attempt k caches e hA hC]
  | succ t ih =>
      intro k caches
      cases hA : attempt k with
      | ok b =>
          rw [loop_step_ok site proxy attempt (t + 1) k caches b hA]
          exact Nat.succ_le_succ (Nat.zero_le _)
      | exc e =>
          cases hC : classify e with
          | raiseReachedLimit inner =>
              rw [loop_step_rl site proxy attempt (t + 1) k caches e inner hA hC]
              exact Nat.succ_le_succ (Nat.zero_le _)
          | raiseProxyError =>
              rw [loop_step_pe site proxy attempt (t + 1) k caches e hA hC]
              exact Nat.succ_le_succ (Nat.zero_le _)
          | indexError =>
              rw [loop_step_idx site proxy attempt (t + 1) k caches e hA hC]
              exact Nat.succ_le_succ (Nat.zero_le _)
          | transient =>
              rw [loop_step_transient_succ site proxy attempt t k caches e hA hC]
              exact Nat.succ_le_succ
                (ih (k + 1) ((robots_cache caches site proxy).2))

/-! ### Substring matching -/

theorem isPrefixOf_iff_exists :
    ∀ (n h : List Char), n.isPrefixOf h = true ↔ ∃ r, h = n ++ r
  | [], h => by
      simp [List.isPrefixOf]
  | a :: n, [] => by
      simp [List.isPrefixOf]
  | a :: n, b :: h => by
      rw [show (a :: n).isPrefixOf (b :: h) = (a == b && n.isPrefixOf h)
        from rfl]
      rw [Bool.and_eq_true, beq_iff_eq, isPrefixOf_iff_exists n h]
      constructor
      · rintro ⟨rfl, r, rfl⟩
        exact ⟨r, rfl⟩
      · rintro ⟨r, hr⟩
        rw [List.cons_append] at hr
        injection hr with h1 h2
        exact ⟨h1.symm, r, h2⟩

/-- `hasSubstr` decides contiguous occurrence: Python's `n in h`. -/
theorem hasSubstr_iff_exists :
    ∀ (n h : List Char), hasSubstr n h = true ↔ ∃ l r, h = l ++ n ++ r
  | n, [] => by
      cases n with
      | nil =>
          simp only [hasSubstr, List.isEmpty]
          constructor
          · intro _
            exact ⟨[], [], rfl⟩
          · intro _
            trivial
      | cons a n2 =>
          simp only [hasSubstr, List.isEmpty]
          constructor
          · intro hcontra
            cases hcontra
          · rintro ⟨l, r, hr⟩
            exact absurd hr.symm (by simp)
  | n, c :: t => by
      simp only [hasSubstr, Bool.or_eq_true, isPrefixOf_iff_exists,
        hasSubstr_iff_exists n t]
      constructor
      · rintro (⟨r, hr⟩ | ⟨l, r, hr⟩)
        · exact ⟨[], r, by simp [hr]⟩
        · exact ⟨c :: l, r, by simp [hr]⟩
      · rintro ⟨l, r, hr⟩
        cases l with
        | nil =>
            exact Or.inl ⟨r, by simpa using hr⟩
        | cons x l2 =>
            rw [List.cons_append, List.cons_append] at hr
            injection hr with h1 h2
            exact Or.inr ⟨l2, r, by simpa using h2⟩

/-! ### Claims -/

/-- Claim C1: a fetch response with status 420 and a warcprox-meta header
always yields a ReachedLimit signal carrying the header value handed to the
JSON parser and the exact body text; every other response is returned
unchanged; and when such a signal arrives wrapped one level inside the
fetch error chain (a reppy ServerError), the loop re-raises it immediately,
with one attempt consumed and no log entries, regardless of the remaining
retry budget. -/
theorem claim_C1_rate_limit_signal :
    (∀ (res : Response) (v : String), res.status_code = 420 →
        lookupKey res.headers "warcprox-meta" = some v →
        sessionRaiseOn420_get res = .reachedLimit v res.text)
    ∧ (∀ res : Response,
        res.status_code ≠ 420 ∨ lookupKey res.headers "warcprox-meta" = none →
        sessionRaiseOn420_get res = .ok res)
    ∧ (∀ (site : Site) (proxy : Option String) (attempt : Nat → FetchOutcome)
        (t k : Nat) (caches : Caches) (m p : String) (a rest : List Exc),
        attempt k = .exc (.mk .serverError (Exc.mk (.reachedLimit m p) a :: rest)) →
        isPermittedLoop site proxy attempt t k caches =
          ⟨.reachedLimit (.mk (.reachedLimit m p) a), [], 1,
            (robots_cache caches site proxy).2⟩)
    ∧ (∀ (site : Site) (proxy : Option String) (attempt : Nat → FetchOutcome)
        (caches : Caches) (m p : String) (a rest : List Exc),
        site.ignore_robots = false →
        attempt 0 = .exc (.mk .serverError (Exc.mk (.reachedLimit m p) a :: rest)) →
        is_permitted_by_robots caches site proxy attempt =
          ⟨.reachedLimit (.mk (.reachedLimit m p) a), [], 1,
            (robots_cache caches site proxy).2⟩) := by
  refine ⟨?_, ?_, ?_, ?_⟩
  · intro res v h420 hhdr
    have hb : (res.status_code == 420) = true := by simpa using h420
    simp [sessionRaiseOn420_get, hb, hhdr]
  · rintro res (h | h)
    · have hb : (res.status_code == 420) = false := by simpa using h
      cases hl : lookupKey res.headers "warcprox-meta" <;>
        simp [sessionRaiseOn420_get, hb, hl]
    · cases hb : res.status_code == 420 <;>
        simp [sessionRaiseOn420_get, hb, h]
  · intro site proxy attempt t k caches m p a rest hA
    exact loop_step_rl site proxy attempt t k caches _ _ hA rfl
  · intro site proxy attempt caches m p a rest hs hA
    unfold is_permitted_by_robots
    rw [hs, if_neg Bool.false_ne_true]
    exact loop_step_rl site proxy attempt 10 0 caches _ _ hA rfl

/-- Witness for claim C1, at a concrete 420 response, a concrete
non-420 response, and a concrete wrapped signal. -/
theorem claim_C1_witness :
    sessionRaiseOn420_get ⟨420, [("warcprox-meta", "meta")], "body"⟩ =
        .reachedLimit "meta" "body"
    ∧ sessionRaiseOn420_get ⟨200, [], "okbody"⟩ = .ok ⟨200, [], "okbody"⟩
    ∧ is_permitted_by_robots [] sampleSite none
        (fun _ => .exc (.mk .serverError [.mk (.reachedLimit "meta" "body") []])) =
        ⟨.reachedLimit (.mk (.reachedLimit "meta" "body") []), [], 1,
          (robots_cache [] sampleSite none).2⟩ :=
  ⟨claim_C1_rate_limit_signal.1 ⟨420, [("warcprox-meta", "meta")], "body"⟩ "meta"
      rfl rfl,
   claim_C1_rate_limit_signal.2.1 ⟨200, [], "okbody"⟩ (Or.inl (by decide)),
   claim_C1_rate_limit_signal.2.2.2 sampleSite none
      (fun _ => .exc (.mk .serverError [.mk (.reachedLimit "meta" "body") []]))
      [] "meta" "body" [] [] rfl rfl⟩

/-- Claim C2 counterexample: with every attempt failing transiently the
loop performs 11 attempts, not 10 — `tries_left` starts at 10 and the
fail-closed return happens on the failure that finds it already 0. -/
theorem claim_C2_counterexample :
    (is_permitted_by_robots [] sampleSite none
        (fun _ => .exc excTransient)).attempts = 11
    ∧ ¬ (is_permitted_by_robots [] sampleSite none
        (fun _ => .exc excTransient)).attempts ≤ 10 := by
  decide

/-- Claim C2 as amended: if every invocation of the directive cache raises
a transient error, then after exactly 11 failed attempts (the initial
attempt plus the 10-entry retry budget) the checker returns false, emitting
10 warning entries and exactly one error-level entry, and the loop never
performs more than 11 attempts in total. -/
theorem claim_C2_amended_retry_budget (site : Site) (caches : Caches)
    (proxy : Option String) (attempt : Nat → FetchOutcome)
    (hs : site.ignore_robots = false)
    (h : ∀ j, j < 11 → transientOutcome (attempt j)) :
    is_permitted_by_robots caches site proxy attempt =
      ⟨.ok false, warnSeq 10 10 ++ [⟨.error, 0⟩], 11,
        (robots_cache caches site proxy).2⟩
    ∧ countLevel .error (warnSeq 10 10 ++ [⟨.error, 0⟩]) = 1
    ∧ countLevel .warn (warnSeq 10 10 ++ [⟨.error, 0⟩]) = 10
    ∧ (∀ (attempt2 : Nat → FetchOutcome) (caches2 : Caches),
        (is_permitted_by_robots caches2 site proxy attempt2).attempts ≤ 11) := by
  refine ⟨?_, by decide, by decide, ?_⟩
  · unfold is_permitted_by_robots
    rw [hs, if_neg Bool.false_ne_true]
    exact loop_all_transient site proxy attempt 10 0 caches
      (fun j hj => by rw [Nat.zero_add]; exact h j (by omega))
  · intro attempt2 caches2
    unfold is_permitted_by_robots
    rw [hs, if_neg Bool.false_ne_true]
    exact loop_attempts_le site proxy attempt2 10 0 caches2

/-- Witness for the amended claim C2 at a concrete always-failing
attempt oracle. -/
theorem claim_C2_witness :
    is_permitted_by_robots [] sampleSite none (fun _ => .exc excTransient) =
      ⟨.ok false, warnSeq 10 10 ++ [⟨.error, 0⟩], 11,
        (robots_cache [] sampleSite none).2⟩ :=
  (claim_C2_amended_retry_budget sampleSite [] none (fun _ => .exc excTransient)
    rfl (fun _ _ => ⟨excTransient, rfl, rfl⟩)).1

/-- Claim C3: if the directive cache raises a transient error on each of
the first 9 attempts and succeeds on the 10th, the checker returns the
10th attempt's boolean immediately (10 attempts in total), with exactly 9
warning-level entries carrying the descending tries-left counts and no
error-level entry. -/
theorem claim_C3_nine_failures_then_success (site : Site) (caches : Caches)
    (proxy : Option String) (attempt : Nat → FetchOutcome) (b : Bool)
    (hs : site.ignore_robots = false)
    (h9 : ∀ j, j < 9 → transientOutcome (attempt j))
    (h10 : attempt 9 = .ok b) :
    is_permitted_by_robots caches site proxy attempt =
      ⟨.ok b, warnSeq 10 9, 10, (robots_cache caches site proxy).2⟩
    ∧ warnSeq 10 9 =
        [⟨.warn, 10⟩, ⟨.warn, 9⟩, ⟨.warn, 8⟩, ⟨.warn, 7⟩, ⟨.warn, 6⟩,
         ⟨.warn, 5⟩, ⟨.warn, 4⟩, ⟨.warn, 3⟩, ⟨.warn, 2⟩]
    ∧ countLevel .warn (warnSeq 10 9) = 9
    ∧ countLevel .error (warnSeq 10 9) = 0 := by
  refine ⟨?_, by decide, by decide, by decide⟩
  unfold is_permitted_by_robots
  rw [hs, if_neg Bool.false_ne_true]
  exact loop_prefix_ok site proxy attempt 9 10 0 caches b (by omega)
    (fun j hj => by rw [Nat.zero_add]; exact h9 j hj)
    (by rw [Nat.zero_add]; exact h10)

/-- A concrete oracle failing transiently 9 times then succeeding. -/
def attemptNineThenOk : Nat → FetchOutcome :=
  fun k => if k < 9 then .exc excTransient else .ok true

/-- Witness for claim C3 at `attemptNineThenOk`. -/
theorem claim_C3_witness :
    is_permitted_by_robots [] sampleSite none attemptNineThenOk =
      ⟨.ok true, warnSeq 10 9, 10, (robots_cache [] sampleSite none).2⟩ :=
  (claim_C3_nine_failures_then_success sampleSite [] none attemptNineThenOk true
    rfl
    (fun j hj => ⟨excTransient, by simp [attemptNineThenOk, hj], rfl⟩)
    (by simp [attemptNineThenOk])).1

/-- Claim C4: with the ignore-robots flag set the checker returns true at
once — zero attempts, no log entries, and the registry untouched (so no
session or directive cache is created or consulted). -/
theorem claim_C4_ignore_robots (caches : Caches) (site : Site)
    (proxy : Option String) (attempt : Nat → FetchOutcome)
    (h : site.ignore_robots = true) :
    is_permitted_by_robots caches site proxy attempt =
      ⟨.ok true, [], 0, caches⟩ := by
  unfold is_permitted_by_robots
  rw [h, if_pos rfl]

/-- A site with the ignore-robots flag set. -/
def siteIgnore : Site :=
  { id := 2, ignore_robots := true, user_agent := none, extra_headers := [] }

/-- Witness for claim C4 at a concrete ignoring site. -/
theorem claim_C4_witness :
    is_permitted_by_robots [] siteIgnore none (fun _ => .exc excTransient) =
      ⟨.ok true, [], 0, []⟩ :=
  claim_C4_ignore_robots [] siteIgnore none (fun _ => .exc excTransient) rfl

/-- Claim C5: the patched rules lookup is a case-insensitive substring
match — `hasSubstr` holds exactly when the key occurs contiguously inside
the lower-cased identity; when no key matches the resolver falls back to
the wildcard entry (absent wildcard gives no group); and the two concrete
examples resolve as the spec states. -/
theorem claim_C5_substring_resolution :
    (∀ n h : List Char, hasSubstr n h = true ↔ ∃ l r, h = l ++ n ++ r)
    ∧ (∀ (agents : List (String × Nat)) (agent : String),
        (∀ p ∈ agents,
          hasSubstr p.1.toList (agent.toList.map Char.toLower) = false) →
        reppy_rules_getitem agents agent = lookupKey agents "*")
    ∧ (∀ (agents : List (String × Nat)) (agent : String) (p : String × Nat),
        agents.find?
            (fun q => hasSubstr q.1.toList (agent.toList.map Char.toLower)) =
          some p →
        reppy_rules_getitem agents agent = some p.2)
    ∧ reppy_rules_getitem [("bot", 0), ("*", 1)] "examplebot/1.0" = some 0
    ∧ reppy_rules_getitem [("bot", 0), ("*", 1)] "unknownclient/2.0" = some 1 := by
  refine ⟨hasSubstr_iff_exists, ?_, ?_, by decide, by decide⟩
  · intro agents agent h
    have hf : agents.find?
        (fun q => hasSubstr q.1.toList (agent.toList.map Char.toLower)) = none := by
      rw [List.find?_eq_none]
      intro p hp
      simpa using h p hp
    unfold reppy_rules_getitem
    rw [hf]
  · intro agents agent p hfind
    unfold reppy_rules_getitem
    rw [hfind]

/-- Witness for claim C5: a mixed-case identity matched by a substring
key, through the matching branch of the theorem. -/
theorem claim_C5_witness :
    reppy_rules_getitem [("ample", 7)] "EXAMPLE" = some 7 :=
  claim_C5_substring_resolution.2.2.1 [("ample", 7)] "EXAMPLE" ("ample", 7)
    (by decide)

/-- Claim C6: once an entry exists for a site identity, every later
`_robots_cache` call for that identity returns the stored pair and leaves
the registry unchanged, whatever proxy address or site configuration the
later call supplies; and get-or-create preserves at-most-one-entry per
identity. -/
theorem claim_C6_cache_hit_stability :
    (∀ (caches : Caches) (site site2 : Site) (proxy2 : Option String)
        (e : CacheEntry),
        lookupKey caches site.id = some e →
        site2.id = site.id →
        robots_cache caches site2 proxy2 = (e, caches))
    ∧ (∀ (caches : Caches) (site : Site) (proxy : Option String),
        nodupKeys caches → nodupKeys (robots_cache caches site proxy).2) := by
  constructor
  · intro caches site site2 proxy2 e h hid
    exact robots_cache_hit caches site2 proxy2 e (by rw [hid, h])
  · intro caches site proxy hnd
    cases h : lookupKey caches site.id with
    | some e =>
        rw [robots_cache_hit caches site proxy e h]
        exact hnd
    | none =>
        have hmiss : robots_cache caches site proxy =
            (mkSession site proxy, (site.id, mkSession site proxy) :: caches) := by
          unfold robots_cache
          rw [h]
        rw [hmiss]
        show (List.map Prod.fst ((site.id, mkSession site proxy) :: caches)).Nodup
        simp only [List.map_cons]
        rw [List.nodup_cons]
        refine ⟨?_, hnd⟩
        intro hmem
        obtain ⟨p, hp, hp1⟩ := List.mem_map.mp hmem
        exact (lookupKey_eq_none_iff caches site.id).mp h p hp hp1

/-- A registry already holding the sample site's entry. -/
def cachesOne : Caches := [(1, mkSession sampleSite none)]

/-- Witness for claim C6: a second resolve with a different proxy and
different site configuration (same identity) returns the first call's
entry and leaves the registry unchanged. -/
theorem claim_C6_witness :
    robots_cache cachesOne
        { id := 1, ignore_robots := false, user_agent := some "other"
        , extra_headers := [("Accept", "text/plain")] }
        (some "proxyhost:8000") =
      (mkSession sampleSite none, cachesOne)
    ∧ nodupKeys (robots_cache cachesOne sampleSite none).2 :=
  ⟨claim_C6_cache_hit_stability.1 cachesOne sampleSite
      { id := 1, ignore_robots := false, user_agent := some "other"
      , extra_headers := [("Accept", "text/plain")] }
      (some "proxyhost:8000") (mkSession sampleSite none) rfl rfl,
   claim_C6_cache_hit_stability.2 cachesOne sampleSite none (by decide)⟩

/-- Claim C7: an exception whose first argument is a requests ProxyError
is re-raised immediately as brozzler.ProxyError wrapping the caught
exception — one attempt consumed, no log entries, regardless of the
remaining budget and of the caught exception's own class. -/
theorem claim_C7_proxy_error (site : Site) (proxy : Option String)
    (attempt : Nat → FetchOutcome) (t k : Nat) (caches : Caches)
    (kd : ExcKind) (pargs rest : List Exc)
    (hA : attempt k = .exc (.mk kd (Exc.mk .proxyError pargs :: rest))) :
    isPermittedLoop site proxy attempt t k caches =
      ⟨.proxyError (.mk kd (Exc.mk .proxyError pargs :: rest)), [], 1,
        (robots_cache caches site proxy).2⟩ := by
  apply loop_step_pe site proxy attempt t k caches _ hA
  cases kd <;> rfl

/-- Witness for claim C7 at a concrete wrapped ProxyError with full
budget remaining. -/
theorem claim_C7_witness :
    isPermittedLoop sampleSite none
        (fun _ => .exc (.mk .serverError [.mk .proxyError []])) 10 0 [] =
      ⟨.proxyError (.mk .serverError [.mk .proxyError []]), [], 1,
        (robots_cache [] sampleSite none).2⟩ :=
  claim_C7_proxy_error sampleSite none
    (fun _ => .exc (.mk .serverError [.mk .proxyError []])) 10 0 []
    .serverError [] [] rfl

/-- Claim C8 is refuted by the code: an exception whose args tuple is
empty makes both classification guards evaluate `e.args[0]`, so the
classification itself raises an IndexError that escapes the function —
the caller observes neither a boolean nor one of the two signal types. -/
theorem claim_C8_empty_args_escape :
    (is_permitted_by_robots [] sampleSite none
        (fun _ => .exc (.mk (.other "Exception") []))).result = .pyError
    ∧ classify (.mk (.other "Exception") []) = .indexError :=
  ⟨rfl, rfl⟩

/-- Claim C9 counterexample: in the interleaving where both callers run
their membership test before either stores, each constructs a
session/directive-cache pair — two constructions, not one. -/
theorem claim_C9_counterexample :
    (run2 sampleSite none [true, false, true, false, true, false]
        (.start, .start, ⟨[], 0⟩)).2.2.constructions = 2
    ∧ ¬ (run2 sampleSite none [true, false, true, false, true, false]
        (.start, .start, ⟨[], 0⟩)).2.2.constructions = 1 := by
  decide

/-- Claim C9 as amended: the registry has no synchronisation, so the
outcome depends on the schedule — when one caller finishes before the
other starts, exactly one pair is constructed and both callers observe it;
but an interleaving of two first calls exists in which each caller runs
its membership test before either stores, and then two pairs are
constructed (the later store wins). -/
theorem claim_C9_amended_interleavings :
    (run2 sampleSite none [true, true, true, false, false, false]
        (.start, .start, ⟨[], 0⟩) =
      (.finished (some (mkSession sampleSite none)),
       .finished (some (mkSession sampleSite none)),
       ⟨[(sampleSite.id, mkSession sampleSite none)], 1⟩))
    ∧ (run2 sampleSite none [true, false, true, false, true, false]
        (.start, .start, ⟨[], 0⟩)).2.2.constructions = 2 := by
  decide

/-- Claim C10 counterexample: a ReachedLimit raised directly — with the
empty args tuple its keyword-only construction gives it — is not retried:
the classification evaluates `e.args[0]`, raises an IndexError, and the
loop ends after one attempt with no warning logged. -/
theorem claim_C10_counterexample :
    (is_permitted_by_robots [] sampleSite none
        (fun _ => .exc (.mk (.reachedLimit "meta" "payload") []))).result = .pyError
    ∧ (is_permitted_by_robots [] sampleSite none
        (fun _ => .exc (.mk (.reachedLimit "meta" "payload") []))).attempts = 1
    ∧ (is_permitted_by_robots [] sampleSite none
        (fun _ => .exc (.mk (.reachedLimit "meta" "payload") []))).log = [] :=
  ⟨rfl, rfl, rfl⟩

/-- Claim C10 as amended: a directly raised ReachedLimit is never
classified as the terminal rate-limit signal — that classification fires
exactly for the one-level ServerError wrapping; a direct ReachedLimit
whose args tuple is nonempty with a non-ProxyError head is classified
transient and retried (the loop logs a warning and continues), while the
empty args tuple makes the classification itself raise. -/
theorem claim_C10_amended_classification :
    (∀ (m p : String) (a : List Exc) (x : Exc),
        classify (.mk (.reachedLimit m p) a) ≠ .raiseReachedLimit x)
    ∧ (∀ (m p : String) (h : Exc) (rest : List Exc),
        h.kind.isProxy = false →
        classify (.mk (.reachedLimit m p) (h :: rest)) = .transient)
    ∧ (∀ m p : String, classify (.mk (.reachedLimit m p) []) = .indexError)
    ∧ (∀ (m p : String) (a rest : List Exc),
        classify (.mk .serverError (Exc.mk (.reachedLimit m p) a :: rest)) =
          .raiseReachedLimit (.mk (.reachedLimit m p) a))
    ∧ (∀ (site : Site) (proxy : Option String) (attempt : Nat → FetchOutcome)
        (t k : Nat) (caches : Caches) (m p : String) (h : Exc) (rest : List Exc),
        h.kind.isProxy = false →
        attempt k = .exc (.mk (.reachedLimit m p) (h :: rest)) →
        (isPermittedLoop site proxy attempt (t + 1) k caches).log.head? =
          some ⟨.warn, t + 1⟩) := by
  refine ⟨?_, ?_, fun m p => rfl, fun m p a rest => rfl, ?_⟩
  · intro m p a x
    cases a with
    | nil => simp [classify]
    | cons h rest =>
        simp only [classify]
        cases hh : h.kind.isProxy <;> simp [hh]
  · intro m p h rest hh
    simp [classify, hh]
  · intro site proxy attempt t k caches m p h rest hh hA
    have hC : classify (.mk (.reachedLimit m p) (h :: rest)) = .transient := by
      simp [classify, hh]
    rw [loop_step_transient_succ site proxy attempt t k caches _ hA hC]
    rfl

/-- Witness for the amended claim C10: a direct ReachedLimit with a
benign args head is retried, the first log entry being the warning with
the full budget shown. -/
theorem claim_C10_witness :
    (isPermittedLoop sampleSite none
        (fun _ => .exc (.mk (.reachedLimit "meta" "payload")
          [.mk (.other "str") []])) 10 0 []).log.head? =
      some ⟨.warn, 10⟩ :=
  claim_C10_amended_classification.2.2.2.2 sampleSite none
    (fun _ => .exc (.mk (.reachedLimit "meta" "payload") [.mk (.other "str") []]))
    9 0 [] "meta" "payload" (.mk (.other "str") []) [] rfl rfl

end Brozzler
